import Mathlib

/-!
Shallow embedding of the etymon repository: the data model (src/types.ts),
the Gemini query-cache-and-fetch service (src/services/geminiService.ts),
the declared response schema, and the App presentation handlers
(src/unnamed/part_000). External behavior (the network and the JSON parser,
both outside this repository) is modelled by an explicit environment record;
the embedding records, for each call, whether a model request was issued.
-/

/-! ## JavaScript string primitives

The source calls the JavaScript builtins `trim()` and `toLowerCase()`.
They are modelled over the character list of a Lean string: `trim` drops
whitespace from both ends, `toLowerCase` lowercases each character.
-/

/-- Model of the JavaScript `String.prototype.toLowerCase`. -/
def jsToLower (s : String) : String :=
  String.mk (s.data.map Char.toLower)

/-- Model of the JavaScript `String.prototype.trim`: removes whitespace
from both ends of the string. -/
def jsTrim (s : String) : String :=
  String.mk (((s.data.dropWhile Char.isWhitespace).reverse.dropWhile
    Char.isWhitespace).reverse)

/-! ## Data model (src/types.ts) -/

/-- The `type` field of `TimelineStep` (a string-literal union in the source). -/
inductive StepType where
  | root | ancestor | derived | cognate | borrowing | current
deriving DecidableEq

/-- `TimelineStep` from src/types.ts. -/
structure TimelineStep where
  era : String
  year_approx : Option String := none
  language : String
  word : String
  transliteration : Option String := none
  meaning : String
  type : StepType
  description : Option String := none

/-- The `type` field of `GraphNode` (a string-literal union in the source). -/
inductive NodeType where
  | root | ancestor | current | cognate | derivative
deriving DecidableEq

/-- `GraphNode` from src/types.ts. `val` is a visual-size number. -/
structure GraphNode where
  id : String
  label : String
  transliteration : Option String := none
  language : String
  definition : Option String := none
  era : Option String := none
  type : NodeType
  val : Option Float := none

/-- The `type` field of `GraphLink` (a string-literal union in the source). -/
inductive LinkType where
  | derived | borrowed | cognate
deriving DecidableEq

/-- `GraphLink` from src/types.ts. -/
structure GraphLink where
  source : String
  target : String
  type : LinkType

/-- `EtymologyGraph` from src/types.ts. -/
structure EtymologyGraph where
  nodes : List GraphNode
  links : List GraphLink

/-- `EtymologyData` from src/types.ts. -/
structure EtymologyData where
  word : String
  language : String
  summary : String
  timeline : List TimelineStep
  graph : EtymologyGraph

/-- `LoadingState` enum from src/types.ts. -/
inductive LoadingState where
  | IDLE | LOADING | SUCCESS | ERROR
deriving DecidableEq

/-! ## Gemini service (src/services/geminiService.ts) -/

/-- The session cache `searchCache : Map<string, EtymologyData>`, modelled
as an association list keyed by the normalized cache key. Entries are
prepended; the service only inserts on a miss, so a key is never
overwritten. -/
abbrev Cache := List (String × EtymologyData)

/-- The normalized cache key computed at the top of `fetchEtymology`:
the template literal joining trimmed-lowercased word and language with a
hyphen. -/
def cacheKey (word language : String) : String :=
  jsToLower (jsTrim word) ++ "-" ++ jsToLower (jsTrim language)

/-- The ways `fetchEtymology` can fail: the model request itself throws,
the response text is absent or empty (`if (!text) throw new Error(...)`),
or `JSON.parse` throws. -/
inductive FetchError where
  | network (msg : String)
  | emptyResponse
  | parseError
deriving DecidableEq

/-- The external world as seen by `fetchEtymology`: `request` models
`ai.models.generateContent` followed by reading `response.text` (a network
failure is `Except.error`; an absent/undefined text is modelled as the
empty string, which the source treats identically via `!text`), and
`parse` models `JSON.parse` (`none` when the text is not valid JSON). -/
structure GeminiEnv where
  request : String → String → Except String String
  parse : String → Option EtymologyData

/-- Outcome of one `fetchEtymology` call: the value returned or error
thrown, the cache state after the call, and whether a model request was
issued during the call. -/
structure FetchResult where
  result : Except FetchError EtymologyData
  cache : Cache
  issued : Bool

/-- `fetchEtymology` from src/services/geminiService.ts, with the cache
state passed explicitly. On a hit it returns the stored value without a
request; on a miss it issues one request, throws on network failure,
empty body, or parse failure (the catch block only logs and rethrows),
and stores the parsed result only on success. -/
def fetchEtymology (env : GeminiEnv) (cache : Cache) (word language : String) :
    FetchResult :=
  let key := cacheKey word language
  match cache.lookup key with
  | some d => ⟨.ok d, cache, false⟩
  | none =>
    match env.request word language with
    | .error msg => ⟨.error (.network msg), cache, true⟩
    | .ok text =>
      if text = "" then ⟨.error .emptyResponse, cache, true⟩
      else
        match env.parse text with
        | none => ⟨.error .parseError, cache, true⟩
        | some data => ⟨.ok data, (key, data) :: cache, true⟩

/-- One entry in the observable trace of a session: the raw arguments of
the call, the value returned or error thrown, and whether a model request
was issued. -/
structure CallOutcome where
  query : String × String
  result : Except FetchError EtymologyData
  issued : Bool

/-- A session: a sequence of `fetchEtymology` calls threading the cache,
returning the trace of outcomes. -/
def runCalls (env : GeminiEnv) : Cache → List (String × String) → List CallOutcome
  | _, [] => []
  | cache, q :: qs =>
    let r := fetchEtymology env cache q.1 q.2
    ⟨q, r.result, r.issued⟩ :: runCalls env r.cache qs

/-- Whether a fetch outcome is a thrown error. -/
def resultIsError : Except FetchError EtymologyData → Bool
  | .error _ => true
  | .ok _ => false

/-- Whether the model request itself failed for the given arguments. -/
def requestFailed (env : GeminiEnv) (word language : String) : Bool :=
  match env.request word language with
  | .error _ => true
  | .ok _ => false

/-- Whether the model request succeeded with an empty (or absent) body. -/
def bodyEmpty (env : GeminiEnv) (word language : String) : Bool :=
  match env.request word language with
  | .error _ => false
  | .ok text => text == ""

/-- Whether the model request succeeded with a non-empty body that is not
valid JSON. -/
def bodyInvalidJson (env : GeminiEnv) (word language : String) : Bool :=
  match env.request word language with
  | .error _ => false
  | .ok text => !(text == "") && (env.parse text).isNone

/-- The parsed body when the request succeeds with non-empty valid JSON,
`none` otherwise. -/
def parsedBody (env : GeminiEnv) (word language : String) :
    Option EtymologyData :=
  match env.request word language with
  | .error _ => none
  | .ok text => if text = "" then none else env.parse text

/-- Whether a settled fetch, as observed by the App layer, resolved. -/
def settledOk : Except String EtymologyData → Bool
  | .ok _ => true
  | .error _ => false

/-! ## App presentation layer (src/unnamed/part_000) -/

/-- The mobile view toggle `activeTab`. -/
inductive ActiveTab where
  | timeline | graph
deriving DecidableEq

/-- The state hooks of the App component. -/
structure AppState where
  word : String
  language : String
  status : LoadingState
  data : Option EtymologyData
  error : Option String
  selectedNode : Option GraphNode
  activeTab : ActiveTab

/-- `INITIAL_WORD` from src/constants.ts. -/
def INITIAL_WORD : String := "etymon"

/-- `INITIAL_LANG` from src/constants.ts. -/
def INITIAL_LANG : String := "English"

/-- The initial hook values of the App component. -/
def initialAppState : AppState :=
  { word := INITIAL_WORD, language := INITIAL_LANG, status := .IDLE,
    data := none, error := none, selectedNode := none,
    activeTab := .timeline }

/-- The synchronous first phase of `handleSearch` past the empty-word
guard: status to LOADING, error and selection cleared. -/
def handleSearchBegin (s : AppState) : AppState :=
  { s with status := .LOADING, error := none, selectedNode := none }

/-- The user-facing message stored on failure:
`err.message || "Failed to fetch etymology. Please try again."`.
The fallback applies when the message is the empty string, the only
falsy string. -/
def failureMessage (msg : String) : String :=
  if msg = "" then "Failed to fetch etymology. Please try again." else msg

/-- The resumption of `handleSearch` once the awaited `fetchEtymology`
settles: the try branch stores the data and moves to SUCCESS, the catch
branch stores a message and moves to ERROR. -/
def handleSearchResolve (s : AppState) :
    Except String EtymologyData → AppState
  | .ok result => { s with data := some result, status := .SUCCESS }
  | .error msg =>
      { s with error := some (failureMessage msg), status := .ERROR }

/-- `handleSearch` from src/unnamed/part_000, as a function of the state
and of how the fetch settles; the boolean records whether
`fetchEtymology` was invoked. The guard `if (!word.trim()) return;`
makes a whitespace-only word a no-op. -/
def handleSearch (s : AppState) (r : Except String EtymologyData) :
    AppState × Bool :=
  if jsTrim s.word = "" then (s, false)
  else (handleSearchResolve (handleSearchBegin s) r, true)

/-- `handleNodeClick` from src/unnamed/part_000. -/
def handleNodeClick (s : AppState) (node : GraphNode) : AppState :=
  { s with selectedNode := some node }

/-- The predicate of the node lookup in `handleTimelineStepClick`:
`n.label === step.word && n.language === step.language`. -/
def matchesStep (step : TimelineStep) (n : GraphNode) : Bool :=
  n.label == step.word && n.language == step.language

/-- `handleTimelineStepClick` from src/unnamed/part_000: with data
loaded, finds a graph node matching the step and, when one exists,
selects it and switches the active tab to the graph view. -/
def handleTimelineStepClick (s : AppState) (step : TimelineStep) :
    AppState :=
  match s.data with
  | none => s
  | some d =>
    match d.graph.nodes.find? (matchesStep step) with
    | some node => { s with selectedNode := some node, activeTab := .graph }
    | none => s

/-- The onClick of the close control of the node-detail overlay:
`setSelectedNode(null)`. -/
def closeSelectedNode (s : AppState) : AppState :=
  { s with selectedNode := none }

/-! ## Response schema (responseSchema in src/services/geminiService.ts) -/

/-- The `Type` enum of the schema language of the model provider,
restricted to the variants the source uses. -/
inductive SchemaType where
  | OBJECT | ARRAY | STRING
deriving DecidableEq

/-- The fragment of the `Schema` record type of the model provider that
the source uses: a type tag, named properties, an array item schema,
required property names, enum values, and a description. -/
inductive Schema where
  | mk (type : SchemaType) (properties : List (String × Schema))
      (items : Option Schema) (required : List String)
      (enum : List String) (description : Option String)

/-- The type tag of a schema. -/
def Schema.type : Schema → SchemaType
  | .mk t _ _ _ _ _ => t

/-- The named properties of a schema. -/
def Schema.properties : Schema → List (String × Schema)
  | .mk _ p _ _ _ _ => p

/-- The item schema of an array schema. -/
def Schema.items : Schema → Option Schema
  | .mk _ _ i _ _ _ => i

/-- The required property names of a schema. -/
def Schema.required : Schema → List String
  | .mk _ _ _ r _ _ => r

/-- The enum values of a schema. -/
def Schema.enum : Schema → List String
  | .mk _ _ _ _ e _ => e

/-- The description of a schema. -/
def Schema.description : Schema → Option String
  | .mk _ _ _ _ _ d => d

/-- The schema of a named property (a bare string schema when the name
is absent). -/
def Schema.prop (s : Schema) (name : String) : Schema :=
  match s.properties.lookup name with
  | some sub => sub
  | none => .mk .STRING [] none [] [] none

/-- The item schema of an array schema, defaulting to a bare string
schema. -/
def Schema.itemsOf (s : Schema) : Schema :=
  match s.items with
  | some sub => sub
  | none => .mk .STRING [] none [] [] none

/-- `responseSchema` from src/services/geminiService.ts, transcribed
field for field. Quotation marks inside the original era description
example list are elided. -/
def responseSchema : Schema :=
  .mk .OBJECT
    [("word", .mk .STRING [] none [] [] none),
     ("language", .mk .STRING [] none [] [] none),
     ("summary", .mk .STRING [] none [] [] none),
     ("timeline", .mk .ARRAY []
       (some (.mk .OBJECT
         [("era", .mk .STRING [] none [] [] none),
          ("language", .mk .STRING [] none [] [] none),
          ("word", .mk .STRING [] none [] [] none),
          ("transliteration", .mk .STRING [] none [] []
            (some "Romanization for non-Latin scripts (e.g., Pinyin, Romaji)")),
          ("meaning", .mk .STRING [] none [] [] none),
          ("type", .mk .STRING [] none []
            ["root", "ancestor", "derived", "cognate", "borrowing", "current"]
            none),
          ("description", .mk .STRING [] none [] [] none)]
         none ["era", "language", "word", "meaning", "type"] [] none))
       [] [] none),
     ("graph", .mk .OBJECT
       [("nodes", .mk .ARRAY []
         (some (.mk .OBJECT
           [("id", .mk .STRING [] none [] [] none),
            ("label", .mk .STRING [] none [] [] none),
            ("transliteration", .mk .STRING [] none [] []
              (some "Romanization for non-Latin scripts")),
            ("language", .mk .STRING [] none [] [] none),
            ("definition", .mk .STRING [] none [] []
              (some "Short English definition/gloss of the word")),
            ("era", .mk .STRING [] none [] []
              (some "Approximate time period (e.g., 12th Century, PIE, 1600s)")),
            ("type", .mk .STRING [] none []
              ["root", "ancestor", "current", "cognate", "derivative"] none)]
           none ["id", "label", "language", "type", "definition", "era"]
           [] none))
         [] [] none),
        ("links", .mk .ARRAY []
          (some (.mk .OBJECT
            [("source", .mk .STRING [] none [] []
               (some "Must match a node id")),
             ("target", .mk .STRING [] none [] []
               (some "Must match a node id")),
             ("type", .mk .STRING [] none []
               ["derived", "borrowed", "cognate"] none)]
            none ["source", "target", "type"] [] none))
          [] [] none)]
       none ["nodes", "links"] [] none)]
    none ["word", "language", "summary", "timeline", "graph"] [] none

/-! ## Concrete fixtures used by witnesses -/

/-- The root node of the fixture graph, per the spec scenario. -/
def nodeA : GraphNode :=
  { id := "a", label := "etymos", language := "Ancient Greek",
    definition := some "true sense", era := some "Antiquity",
    type := .root }

/-- The current node of the fixture graph, per the spec scenario. -/
def nodeB : GraphNode :=
  { id := "b", label := "etymon", language := "English",
    definition := some "the true origin of a word",
    era := some "Modern", type := .current }

/-- The timeline step of kind root in the fixture data. -/
def stepRoot : TimelineStep :=
  { era := "Antiquity", language := "Ancient Greek", word := "etymos",
    meaning := "true sense", type := .root }

/-- The timeline step of kind current in the fixture data; its word and
language equal the label and language of `nodeB`. -/
def stepCurrent : TimelineStep :=
  { era := "Modern", language := "English", word := "etymon",
    meaning := "the true origin of a word", type := .current }

/-- A fixed EtymologyData with a root node and a current node joined by
a derived link, as in the spec scenario. -/
def sampleData : EtymologyData :=
  { word := "etymon", language := "English", summary := "A summary.",
    timeline := [stepRoot, stepCurrent],
    graph := { nodes := [nodeA, nodeB],
               links := [{ source := "a", target := "b",
                           type := .derived }] } }

/-- An environment whose requests always succeed with a fixed non-empty
body that parses to `sampleData`. -/
def envOk : GeminiEnv :=
  { request := fun _ _ => .ok "json", parse := fun _ => some sampleData }

/-- An environment whose requests always fail at the network level. -/
def envDown : GeminiEnv :=
  { request := fun _ _ => .error "boom", parse := fun _ => none }

/-- A loaded app state holding the fixture data. -/
def sampleState : AppState :=
  { word := "etymon", language := "English", status := .SUCCESS,
    data := some sampleData, error := none, selectedNode := none,
    activeTab := .timeline }

/-! ## Helper lemmas about the service -/

/-- On a cache hit `fetchEtymology` returns the stored value, leaves the
cache untouched, and issues no request. -/
theorem fetchEtymology_hit (env : GeminiEnv) (cache : Cache)
    (word language : String) (d : EtymologyData)
    (h : cache.lookup (cacheKey word language) = some d) :
    fetchEtymology env cache word language = ⟨.ok d, cache, false⟩ := by
  simp [fetchEtymology, h]

/-- A stored cache entry survives any later `fetchEtymology` call: the
service never overwrites an existing key. -/
theorem fetchEtymology_lookup_preserved (env : GeminiEnv) (cache : Cache)
    (word language : String) (k : String) (d : EtymologyData)
    (h : cache.lookup k = some d) :
    (fetchEtymology env cache word language).cache.lookup k = some d := by
  unfold fetchEtymology
  cases hkey : cache.lookup (cacheKey word language) with
  | some d₀ => simpa [hkey] using h
  | none =>
    cases hreq : env.request word language with
    | error msg => simpa [hkey, hreq] using h
    | ok text =>
      by_cases htext : text = ""
      · simpa [hkey, hreq, htext] using h
      · cases hparse : env.parse text with
        | none => simpa [hkey, hreq, htext, hparse] using h
        | some data =>
          simp only [hkey, hreq, hparse, if_neg htext]
          rw [List.lookup_cons]
          have hne : k ≠ cacheKey word language := by
            intro he
            rw [he, hkey] at h
            exact Option.noConfusion h
          simp [beq_eq_false_iff_ne.mpr hne, h]

/-- On a cache miss every branch of `fetchEtymology` issues a model
request. -/
theorem fetchEtymology_miss_issued (env : GeminiEnv) (cache : Cache)
    (word language : String)
    (h : cache.lookup (cacheKey word language) = none) :
    (fetchEtymology env cache word language).issued = true := by
  unfold fetchEtymology
  cases hreq : env.request word language with
  | error msg => simp [h, hreq]
  | ok text =>
    by_cases htext : text = ""
    · simp [h, hreq, htext]
    · cases hparse : env.parse text with
      | none => simp [h, hreq, htext, hparse]
      | some data => simp [h, hreq, htext, hparse]

/-- A fetch that returns an error must have missed the cache and left it
unchanged. -/
theorem fetchEtymology_error_shape (env : GeminiEnv) (cache : Cache)
    (word language : String) (e : FetchError)
    (h : (fetchEtymology env cache word language).result = .error e) :
    cache.lookup (cacheKey word language) = none ∧
    (fetchEtymology env cache word language).cache = cache := by
  unfold fetchEtymology at h ⊢
  cases hkey : cache.lookup (cacheKey word language) with
  | some d => simp [hkey] at h
  | none =>
    refine ⟨rfl, ?_⟩
    cases hreq : env.request word language with
    | error msg => simp [hkey, hreq]
    | ok text =>
      by_cases htext : text = ""
      · simp [hkey, hreq, htext]
      · cases hparse : env.parse text with
        | none => simp [hkey, hreq, htext, hparse]
        | some data => simp [hkey, hreq, htext, hparse] at h

/-! ## Claim theorems -/

/-- C3: cache-key normalization is case- and surrounding-whitespace-
insensitive: two argument pairs whose words and languages are equal
after trimming and lowercasing compute the same cache key, and when that
key is stored both calls hit the same cache entry, each returning the
stored value without issuing a request. -/
theorem cacheKey_norm_insensitive (env : GeminiEnv) (cache : Cache)
    (w w₂ l l₂ : String) (d : EtymologyData)
    (hw : jsToLower (jsTrim w) = jsToLower (jsTrim w₂))
    (hl : jsToLower (jsTrim l) = jsToLower (jsTrim l₂))
    (hd : cache.lookup (cacheKey w l) = some d) :
    cacheKey w l = cacheKey w₂ l₂ ∧
    fetchEtymology env cache w l = ⟨.ok d, cache, false⟩ ∧
    fetchEtymology env cache w₂ l₂ = ⟨.ok d, cache, false⟩ := by
  have hk : cacheKey w l = cacheKey w₂ l₂ := by
    unfold cacheKey
    rw [hw, hl]
  refine ⟨hk, fetchEtymology_hit env cache w l d hd,
    fetchEtymology_hit env cache w₂ l₂ d ?_⟩
  rw [← hk]
  exact hd

/-- Witness for C3 at the spec example arguments, with the normalized
key stored in the cache. -/
theorem cacheKey_norm_insensitive_witness :
    jsToLower (jsTrim "Etymon") = jsToLower (jsTrim "etymon") ∧
    jsToLower (jsTrim " English ") = jsToLower (jsTrim "english") ∧
    ([("etymon-english", sampleData)] : Cache).lookup
      (cacheKey "Etymon" " English ") = some sampleData ∧
    (cacheKey "Etymon" " English " = cacheKey "etymon" "english" ∧
     fetchEtymology envOk [("etymon-english", sampleData)]
       "Etymon" " English " =
       ⟨.ok sampleData, [("etymon-english", sampleData)], false⟩ ∧
     fetchEtymology envOk [("etymon-english", sampleData)]
       "etymon" "english" =
       ⟨.ok sampleData, [("etymon-english", sampleData)], false⟩) :=
  ⟨rfl, rfl, rfl,
   cacheKey_norm_insensitive envOk [("etymon-english", sampleData)]
     "Etymon" "etymon" " English " "english" sampleData rfl rfl rfl⟩

/-- C8: the cache key is not injective across distinct queries: the
hyphen separator also occurs in arguments, so the queries
("a-b", "c") and ("a", "b-c") share the key "a-b-c"; after the first
call stores its result, the second call returns that stored data without
issuing a request even though the queries differ. -/
theorem cacheKey_collision :
    cacheKey "a-b" "c" = "a-b-c" ∧
    cacheKey "a" "b-c" = "a-b-c" ∧
    (("a-b", "c") : String × String) ≠ ("a", "b-c") ∧
    (fetchEtymology envOk [] "a-b" "c").issued = true ∧
    (fetchEtymology envOk (fetchEtymology envOk [] "a-b" "c").cache
      "a" "b-c").result = .ok sampleData ∧
    (fetchEtymology envOk (fetchEtymology envOk [] "a-b" "c").cache
      "a" "b-c").issued = false :=
  ⟨rfl, rfl, by decide, rfl, rfl, rfl⟩

/-- C2: a failed fetch leaves the cache unchanged and re-raises the
failure to the caller, so an identical follow-up call misses the cache
and issues a new model request rather than replaying a cached failure. -/
theorem fetch_failure_cache_unchanged (env : GeminiEnv) (cache : Cache)
    (w l : String) (e : FetchError)
    (h : (fetchEtymology env cache w l).result = .error e) :
    (fetchEtymology env cache w l).cache = cache ∧
    (fetchEtymology env cache w l).issued = true ∧
    (fetchEtymology env (fetchEtymology env cache w l).cache w l).issued
      = true := by
  obtain ⟨hmiss, hcache⟩ := fetchEtymology_error_shape env cache w l e h
  refine ⟨hcache, fetchEtymology_miss_issued env cache w l hmiss, ?_⟩
  rw [hcache]
  exact fetchEtymology_miss_issued env cache w l hmiss

/-- Witness for C2: a network-failing environment on an empty cache. -/
theorem fetch_failure_cache_unchanged_witness :
    (fetchEtymology envDown [] "etymon" "English").result =
      .error (.network "boom") ∧
    ((fetchEtymology envDown [] "etymon" "English").cache = [] ∧
     (fetchEtymology envDown [] "etymon" "English").issued = true ∧
     (fetchEtymology envDown
       (fetchEtymology envDown [] "etymon" "English").cache
       "etymon" "English").issued = true) :=
  ⟨rfl, fetch_failure_cache_unchanged envDown [] "etymon" "English"
    (.network "boom") rfl⟩

/-- C4: on a cache miss the fetch fails exactly when the request fails,
the response body is empty, or the body is not valid JSON; and a
non-empty valid-JSON body yields the parsed value. -/
theorem fetch_miss_error_iff (env : GeminiEnv) (cache : Cache)
    (w l : String) (d : EtymologyData)
    (hmiss : cache.lookup (cacheKey w l) = none) :
    resultIsError (fetchEtymology env cache w l).result =
      (requestFailed env w l || bodyEmpty env w l ||
        bodyInvalidJson env w l) ∧
    (parsedBody env w l = some d →
      (fetchEtymology env cache w l).result = .ok d) := by
  unfold fetchEtymology resultIsError requestFailed bodyEmpty
    bodyInvalidJson parsedBody
  cases hreq : env.request w l with
  | error msg => simp [hmiss, hreq]
  | ok text =>
    by_cases htext : text = ""
    · simp [hmiss, hreq, htext]
    · cases hparse : env.parse text with
      | none => simp [hmiss, hreq, htext, hparse]
      | some data => simp [hmiss, hreq, htext, hparse]

/-- Witness for C4: a miss on the empty cache in the always-succeeding
environment returns the parsed fixture data. -/
theorem fetch_miss_error_iff_witness :
    ([] : Cache).lookup (cacheKey "salary" "Latin") = none ∧
    resultIsError (fetchEtymology envOk [] "salary" "Latin").result =
      (requestFailed envOk "salary" "Latin" ||
        bodyEmpty envOk "salary" "Latin" ||
        bodyInvalidJson envOk "salary" "Latin") ∧
    (fetchEtymology envOk [] "salary" "Latin").result = .ok sampleData :=
  ⟨rfl, (fetch_miss_error_iff envOk [] "salary" "Latin" sampleData rfl).1,
   (fetch_miss_error_iff envOk [] "salary" "Latin" sampleData rfl).2 rfl⟩

/-- C1: once a result is stored for a normalized key, every later call
of the session whose arguments normalize to that key returns the stored
EtymologyData and issues no model request, across any number of calls. -/
theorem fetch_cached_key_no_request (env : GeminiEnv) (cache : Cache)
    (qs : List (String × String)) (k : String) (d : EtymologyData)
    (o : CallOutcome) (hd : cache.lookup k = some d)
    (ho : o ∈ runCalls env cache qs)
    (hk : cacheKey o.query.1 o.query.2 = k) :
    o.result = .ok d ∧ o.issued = false := by
  induction qs generalizing cache with
  | nil => simp [runCalls] at ho
  | cons q qs ih =>
    simp only [runCalls, List.mem_cons] at ho
    rcases ho with he | ht
    · subst he
      dsimp only at hk ⊢
      have hkey : cache.lookup (cacheKey q.1 q.2) = some d := by
        rw [hk]
        exact hd
      rw [fetchEtymology_hit env cache q.1 q.2 d hkey]
      exact ⟨rfl, rfl⟩
    · exact ih (fetchEtymology env cache q.1 q.2).cache
        (fetchEtymology_lookup_preserved env cache q.1 q.2 k d hd) ht

/-- Witness for C1: a cache already holding the fixture data under the
normalized key, queried twice more with differently-cased and padded
arguments, answers from the cache without a request. -/
theorem fetch_cached_key_no_request_witness :
    ([("etymon-english", sampleData)] : Cache).lookup "etymon-english" =
      some sampleData ∧
    (⟨(" Etymon ", "ENGLISH"),
      (fetchEtymology envOk [("etymon-english", sampleData)]
        " Etymon " "ENGLISH").result,
      (fetchEtymology envOk [("etymon-english", sampleData)]
        " Etymon " "ENGLISH").issued⟩ : CallOutcome).result =
        .ok sampleData ∧
    (⟨(" Etymon ", "ENGLISH"),
      (fetchEtymology envOk [("etymon-english", sampleData)]
        " Etymon " "ENGLISH").result,
      (fetchEtymology envOk [("etymon-english", sampleData)]
        " Etymon " "ENGLISH").issued⟩ : CallOutcome).issued = false := by
  have hmem : (⟨(" Etymon ", "ENGLISH"),
      (fetchEtymology envOk [("etymon-english", sampleData)]
        " Etymon " "ENGLISH").result,
      (fetchEtymology envOk [("etymon-english", sampleData)]
        " Etymon " "ENGLISH").issued⟩ : CallOutcome) ∈
      runCalls envOk [("etymon-english", sampleData)]
        [(" Etymon ", "ENGLISH"), ("etymon", "english")] :=
    List.mem_cons_self _ _
  have h := fetch_cached_key_no_request envOk
    [("etymon-english", sampleData)]
    [(" Etymon ", "ENGLISH"), ("etymon", "english")]
    "etymon-english" sampleData _ rfl hmem rfl
  exact ⟨rfl, h.1, h.2⟩

/-- C5: clicking a timeline step with data loaded selects the graph node
whose label and language match the step and switches the active tab to
the graph view; when no node matches, selection and active tab are
unchanged; the remaining fields are untouched either way. -/
theorem timeline_step_click_selects (s : AppState) (step : TimelineStep)
    (d : EtymologyData) (h : s.data = some d) :
    ((handleTimelineStepClick s step).selectedNode =
      if (d.graph.nodes.find? (matchesStep step)).isSome
      then d.graph.nodes.find? (matchesStep step)
      else s.selectedNode) ∧
    ((handleTimelineStepClick s step).activeTab =
      if (d.graph.nodes.find? (matchesStep step)).isSome
      then ActiveTab.graph else s.activeTab) ∧
    (handleTimelineStepClick s step).status = s.status ∧
    (handleTimelineStepClick s step).data = s.data ∧
    (handleTimelineStepClick s step).error = s.error ∧
    (handleTimelineStepClick s step).word = s.word ∧
    (handleTimelineStepClick s step).language = s.language := by
  unfold handleTimelineStepClick
  rw [h]
  cases hf : d.graph.nodes.find? (matchesStep step) with
  | none => simp [hf, h]
  | some node => simp [hf]

/-- Witness for C5 at the spec scenario: with nodes a (root) and b
(current) linked a to b, clicking the timeline step whose word and
language equal the label and language of node b selects node b and
switches to the graph tab. -/
theorem timeline_step_click_selects_witness :
    sampleState.data = some sampleData ∧
    sampleData.graph.nodes.find? (matchesStep stepCurrent) =
      some nodeB ∧
    (handleTimelineStepClick sampleState stepCurrent).selectedNode =
      some nodeB ∧
    (handleTimelineStepClick sampleState stepCurrent).activeTab =
      ActiveTab.graph ∧
    (handleTimelineStepClick sampleState stepCurrent).status =
      sampleState.status := by
  have hf : sampleData.graph.nodes.find? (matchesStep stepCurrent) =
      some nodeB := rfl
  have h := timeline_step_click_selects sampleState stepCurrent
    sampleData rfl
  refine ⟨rfl, hf, ?_, ?_, h.2.2.1⟩
  · rw [h.1, hf]
    rfl
  · rw [h.2.1, hf]
    rfl

/-- C6: a submission whose word trims to the empty string is a no-op:
the state is returned unchanged in every field and fetchEtymology is not
invoked. -/
theorem handleSearch_empty_noop (s : AppState)
    (r : Except String EtymologyData) (h : jsTrim s.word = "") :
    handleSearch s r = (s, false) := by
  simp [handleSearch, h]

/-- Witness for C6 on a whitespace-only word. -/
theorem handleSearch_empty_noop_witness :
    jsTrim "   " = "" ∧
    handleSearch { sampleState with word := "   " } (.ok sampleData) =
      ({ sampleState with word := "   " }, false) :=
  ⟨rfl, handleSearch_empty_noop { sampleState with word := "   " }
    (.ok sampleData) rfl⟩

/-- C7: the status state machine: a non-empty submission first moves to
LOADING with error and selection cleared and invokes the fetch; the
final status is SUCCESS storing the fetched data exactly when the fetch
resolves, and ERROR storing a message derived from the failure exactly
when it rejects; no other resulting status is reachable. -/
theorem handleSearch_state_machine (s : AppState)
    (r : Except String EtymologyData) (h : jsTrim s.word ≠ "") :
    (handleSearchBegin s).status = .LOADING ∧
    (handleSearchBegin s).error = none ∧
    (handleSearchBegin s).selectedNode = none ∧
    handleSearch s r = (handleSearchResolve (handleSearchBegin s) r, true) ∧
    ((handleSearch s r).1.status = .SUCCESS ↔ settledOk r = true) ∧
    ((handleSearch s r).1.status = .ERROR ↔ settledOk r = false) ∧
    (handleSearch s r).1.data =
      (match r with | .ok d => some d | .error _ => s.data) ∧
    (handleSearch s r).1.error =
      (match r with | .ok _ => none
                    | .error m => some (failureMessage m)) := by
  cases r with
  | ok result =>
    simp [handleSearch, handleSearchBegin, handleSearchResolve,
      settledOk, h]
  | error msg =>
    simp [handleSearch, handleSearchBegin, handleSearchResolve,
      settledOk, h]

/-- Witness for C7 on a rejection with an empty message: the state moves
to ERROR and stores the fallback message. -/
theorem handleSearch_state_machine_witness :
    jsTrim sampleState.word ≠ "" ∧
    (handleSearchBegin sampleState).status = .LOADING ∧
    (handleSearch sampleState (.error "")).1.status = .ERROR ∧
    (handleSearch sampleState (.error "")).1.error =
      some "Failed to fetch etymology. Please try again." := by
  have h : jsTrim sampleState.word ≠ "" := by decide
  have hm := handleSearch_state_machine sampleState (.error "") h
  refine ⟨h, hm.1, hm.2.2.2.2.2.1.mpr rfl, ?_⟩
  rw [hm.2.2.2.2.2.2.2]
  rfl

/-- C9: dismissing the node-detail overlay nulls only the selected-node
reference: for every state with a node selected, status, data, error,
word, language, and active tab are unchanged. -/
theorem closeSelectedNode_frame (s : AppState) (n : GraphNode)
    (h : s.selectedNode = some n) :
    (closeSelectedNode s).selectedNode = none ∧
    (closeSelectedNode s).status = s.status ∧
    (closeSelectedNode s).data = s.data ∧
    (closeSelectedNode s).error = s.error ∧
    (closeSelectedNode s).word = s.word ∧
    (closeSelectedNode s).language = s.language ∧
    (closeSelectedNode s).activeTab = s.activeTab := by
  simp [closeSelectedNode]

/-- Witness for C9 on a state with node b selected. -/
theorem closeSelectedNode_frame_witness :
    ({ sampleState with selectedNode := some nodeB } :
      AppState).selectedNode = some nodeB ∧
    ((closeSelectedNode { sampleState with selectedNode := some nodeB
      }).selectedNode = none ∧
     (closeSelectedNode { sampleState with selectedNode := some nodeB
      }).status = sampleState.status ∧
     (closeSelectedNode { sampleState with selectedNode := some nodeB
      }).data = sampleState.data ∧
     (closeSelectedNode { sampleState with selectedNode := some nodeB
      }).error = sampleState.error ∧
     (closeSelectedNode { sampleState with selectedNode := some nodeB
      }).word = sampleState.word ∧
     (closeSelectedNode { sampleState with selectedNode := some nodeB
      }).language = sampleState.language ∧
     (closeSelectedNode { sampleState with selectedNode := some nodeB
      }).activeTab = sampleState.activeTab) :=
  ⟨rfl, closeSelectedNode_frame
    { sampleState with selectedNode := some nodeB } nodeB rfl⟩

/-- C10: the declared response schema requires exactly the listed
fields: word, language, summary, timeline, graph at top level; era,
language, word, meaning and a kind over the six step kinds on timeline
items, with transliteration and description declared but optional; id,
label, language, kind, definition, era on graph nodes over the five node
kinds; source, target and a kind over the three link kinds on links. -/
theorem responseSchema_shape :
    responseSchema.required =
      ["word", "language", "summary", "timeline", "graph"] ∧
    (responseSchema.prop "timeline").itemsOf.required =
      ["era", "language", "word", "meaning", "type"] ∧
    ((responseSchema.prop "timeline").itemsOf.prop "type").enum =
      ["root", "ancestor", "derived", "cognate", "borrowing",
       "current"] ∧
    ((responseSchema.prop "timeline").itemsOf.properties.map
      Prod.fst).contains "transliteration" = true ∧
    ((responseSchema.prop "timeline").itemsOf.properties.map
      Prod.fst).contains "description" = true ∧
    (responseSchema.prop "timeline").itemsOf.required.contains
      "transliteration" = false ∧
    (responseSchema.prop "timeline").itemsOf.required.contains
      "description" = false ∧
    ((responseSchema.prop "graph").prop "nodes").itemsOf.required =
      ["id", "label", "language", "type", "definition", "era"] ∧
    (((responseSchema.prop "graph").prop "nodes").itemsOf.prop
      "type").enum =
      ["root", "ancestor", "current", "cognate", "derivative"] ∧
    ((responseSchema.prop "graph").prop "links").itemsOf.required =
      ["source", "target", "type"] ∧
    (((responseSchema.prop "graph").prop "links").itemsOf.prop
      "type").enum = ["derived", "borrowed", "cognate"] := by
  refine ⟨rfl, rfl, rfl, rfl, rfl, rfl, rfl, rfl, rfl, rfl, rfl⟩
